import Mathlib

/-!
Verification of the motion-based target game core (`src/components/GameCanvas.tsx`).

The embedding below translates the game-logic parts of `GameCanvas.tsx` into
pure Lean functions.  JavaScript numbers are modelled as rationals (`ℚ`) for
coordinates and timestamps and as integers (`ℤ`) for hit points and score;
counters are naturals.  Mutable refs become fields of an explicit `GameState`
threaded through tick functions; `Math.random()` draws and the derived random
id strings become explicit inputs (`SpawnInput`) supplied to each tick, since
the code consumes exactly one id / position / size draw per spawn.

Presentation-only state (particles, floating texts, canvas drawing) does not
interact with the game-logic state and is omitted; the cursor ref
(`cursorRef`, lines 234-255) interacts with nothing else and is modelled by
the standalone `cursorUpdate`.
-/

namespace FPS

/-- Constants from `GameCanvas.tsx` lines 8-13 (the hit cooldown `400` is the
inline literal at line 260, and the head-zone fraction `0.25` the literal at
line 278). -/
def HIT_PIXEL_COUNT_THRESHOLD : ℕ := 25

def ENEMY_SPAWN_RATE_MS : ℚ := 1500

def ENEMY_LIFESPAN_MS : ℚ := 5000

def GAME_DURATION_SEC : ℚ := 60

def HIT_COOLDOWN_MS : ℚ := 400

/-- An active motion cell in full-resolution coordinates (the elements of
`activePixels`, line 213). -/
structure Point where
  x : ℚ
  y : ℚ
deriving Repr, DecidableEq, Inhabited

/-- The `Enemy` record of `types.ts` lines 13-24.  The extra field `credited`
is ghost instrumentation absent from the source: it counts how many times
this particular target triggered the `enemiesDestroyedRef.current++` at line
301, letting us state that the destroyed counter is bumped at most once per
target.  It influences no branch of any modelled function. -/
structure Enemy where
  id : String
  x : ℚ
  y : ℚ
  width : ℚ
  height : ℚ
  hp : ℤ
  maxHp : ℤ
  spawnTime : ℚ
  lastHitTime : ℚ
  isHit : Bool
  credited : ℕ
deriving Repr, DecidableEq, Inhabited

/-- The random draws consumed by one spawn (lines 100-104): the generated id
string `Math.random().toString(36).substr(2, 9)`, the size draw and the two
position draws, each in `[0,1)`. -/
structure SpawnInput where
  id : String
  sizeRand : ℚ
  xRand : ℚ
  yRand : ℚ
deriving Repr, DecidableEq, Inhabited

/-- The enemy pushed at lines 100-112: `size = 80 + rand*40`,
`x = rand*(width - size)`, `y = rand*(height - size)`, `height = size * 1.6`,
`hp = maxHp = 3`, `spawnTime = timestamp`, `lastHitTime = 0`. -/
def spawnEnemy (si : SpawnInput) (timestamp width height : ℚ) : Enemy :=
  let size : ℚ := 80 + si.sizeRand * 40
  { id := si.id
    x := si.xRand * (width - size)
    y := si.yRand * (height - size)
    width := size
    height := size * 1.6
    hp := 3
    maxHp := 3
    spawnTime := timestamp
    lastHitTime := 0
    isHit := false
    credited := 0 }

/-- The mutable session refs of `GameCanvas.tsx` lines 20-31 relevant to the
game logic. -/
structure GameState where
  enemies : List Enemy
  score : ℤ
  headshots : ℕ
  bodyshots : ℕ
  enemiesSpawned : ℕ
  enemiesDestroyed : ℕ
  lastSpawnTime : ℚ
  gameStartTime : ℚ
deriving Repr, DecidableEq, Inhabited

/-- All refs start at `0` / empty (lines 20-31). -/
def initState : GameState :=
  { enemies := []
    score := 0
    headshots := 0
    bodyshots := 0
    enemiesSpawned := 0
    enemiesDestroyed := 0
    lastSpawnTime := 0
    gameStartTime := 0 }

/-- Spawning, lines 99-115: one new enemy is pushed when
`timestamp - lastSpawnTime > ENEMY_SPAWN_RATE_MS`. -/
def spawnStep (s : GameState) (si : SpawnInput) (timestamp width height : ℚ) : GameState :=
  if ENEMY_SPAWN_RATE_MS < timestamp - s.lastSpawnTime then
    { s with
      enemies := s.enemies ++ [spawnEnemy si timestamp width height]
      enemiesSpawned := s.enemiesSpawned + 1
      lastSpawnTime := timestamp }
  else s

/-- Lines 135-139: clear the transient `isHit` flash after 100ms. -/
def clearHitFlag (timestamp : ℚ) (e : Enemy) : Enemy :=
  if e.isHit && decide (100 < timestamp - e.lastHitTime) then { e with isHit := false } else e

/-- Lines 142-152: keep an enemy iff it is neither dead (`hp <= 0`) nor
expired (`timestamp - spawnTime > ENEMY_LIFESPAN_MS`). -/
def keepEnemy (timestamp : ℚ) (e : Enemy) : Bool :=
  !decide (e.hp ≤ 0) && !decide (ENEMY_LIFESPAN_MS < timestamp - e.spawnTime)

/-- The per-tick directory sweep, lines 135-152: flag clearing then removal. -/
def sweepEnemies (timestamp : ℚ) (es : List Enemy) : List Enemy :=
  (es.map (clearHitFlag timestamp)).filter (keepEnemy timestamp)

/-- Lines 155-156: `remain = max(0, GAME_DURATION_SEC - elapsed)`. -/
def remainingAt (gameStart timestamp : ℚ) : ℚ :=
  max 0 (GAME_DURATION_SEC - (timestamp - gameStart) / 1000)

/-- The state after the spawn and sweep phases of `updateGameState`
(lines 99-152). -/
def sweptState (s : GameState) (si : SpawnInput) (timestamp width height : ℚ) : GameState :=
  { spawnStep s si timestamp width height with
    enemies := sweepEnemies timestamp (spawnStep s si timestamp width height).enemies }

/-- `updateGameState`, lines 97-171 (minus the presentation-only particle and
text updates of lines 117-132).  Returns the new state and the continue flag:
the code returns `false` (after firing `onGameOver` with the counters as they
stand at that moment) exactly when `remain <= 0`, lines 159-170. -/
def updateGameState (s : GameState) (si : SpawnInput) (timestamp width height : ℚ) :
    GameState × Bool :=
  (sweptState s si timestamp width height,
   !decide (remainingAt (sweptState s si timestamp width height).gameStartTime timestamp ≤ 0))

/-- Line 267-268: inclusive bounding-box test for an active pixel. -/
def inBox (e : Enemy) (p : Point) : Bool :=
  decide (e.x ≤ p.x) && decide (p.x ≤ e.x + e.width) &&
  decide (e.y ≤ p.y) && decide (p.y ≤ e.y + e.height)

/-- The active pixels inside the enemy box (the loop of lines 266-272). -/
def inBoxPixels (e : Enemy) (ps : List Point) : List Point :=
  ps.filter (inBox e)

/-- `hitsInRect`, lines 262-272: note the code counts list entries, not
distinct coordinates. -/
def hitsInRect (e : Enemy) (ps : List Point) : ℕ :=
  (inBoxPixels e ps).length

/-- `hitYSum`, lines 263-271. -/
def hitYSum (e : Enemy) (ps : List Point) : ℚ :=
  ((inBoxPixels e ps).map Point.y).sum

/-- The counters mutated by the collision block, lines 284-304. -/
structure HitCounters where
  score : ℤ
  headshots : ℕ
  bodyshots : ℕ
  enemiesDestroyed : ℕ
deriving Repr, DecidableEq, Inhabited

def countersOf (s : GameState) : HitCounters :=
  { score := s.score
    headshots := s.headshots
    bodyshots := s.bodyshots
    enemiesDestroyed := s.enemiesDestroyed }

/-- The per-enemy body of the collision `forEach`, lines 258-305: cooldown
guard, pixel count against the threshold, head/body classification on the
mean in-box y, damage, score and the destroyed bump when `hp <= 0` results.
The ghost `credited` field is incremented exactly when the code reaches
`enemiesDestroyedRef.current++` for this enemy. -/
def resolveEnemy (ps : List Point) (timestamp : ℚ) (e : Enemy) (c : HitCounters) :
    Enemy × HitCounters :=
  if timestamp - e.lastHitTime < HIT_COOLDOWN_MS then (e, c)
  else if HIT_PIXEL_COUNT_THRESHOLD < hitsInRect e ps then
    if hitYSum e ps / (hitsInRect e ps : ℚ) < e.y + e.height * 0.25 then
      ({ e with hp := 0, lastHitTime := timestamp, isHit := true, credited := e.credited + 1 },
       { c with
          score := c.score + 3
          headshots := c.headshots + 1
          enemiesDestroyed := c.enemiesDestroyed + 1 })
    else
      let newHp := e.hp - 1
      ({ e with
          hp := newHp
          lastHitTime := timestamp
          isHit := true
          credited := if newHp ≤ 0 then e.credited + 1 else e.credited },
       { c with
          score := c.score + 1
          bodyshots := c.bodyshots + 1
          enemiesDestroyed :=
            if newHp ≤ 0 then c.enemiesDestroyed + 1 else c.enemiesDestroyed })
  else (e, c)

/-- The whole collision pass: the `forEach` of line 258, visiting each live
enemy once in list order and threading the shared counters through. -/
def resolvePass (ps : List Point) (timestamp : ℚ) :
    List Enemy → HitCounters → List Enemy × HitCounters
  | [], c => ([], c)
  | e :: es, c =>
    let r := resolveEnemy ps timestamp e c
    let rest := resolvePass ps timestamp es r.2
    (r.1 :: rest.1, rest.2)

/-- Cursor smoothing factor, line 247. -/
def smoothFactor : ℚ := 0.5

/-- The cursor update of lines 234-255: absent on no motion, raw centroid on
first motion, exponentially smoothed towards the centroid otherwise. -/
def cursorUpdate (cursor : Option Point) (activePixels : List Point) : Option Point :=
  if 0 < activePixels.length then
    let avgX := (activePixels.map Point.x).sum / (activePixels.length : ℚ)
    let avgY := (activePixels.map Point.y).sum / (activePixels.length : ℚ)
    match cursor with
    | some cur =>
        some ⟨cur.x * smoothFactor + avgX * (1 - smoothFactor),
              cur.y * smoothFactor + avgY * (1 - smoothFactor)⟩
    | none => some ⟨avgX, avgY⟩
  else none

/-- The inputs one animation-frame tick consumes: the random draws a spawn
would use, the active pixels computed by the motion detector, the frame
timestamp and the canvas dimensions. -/
structure TickInput where
  spawn : SpawnInput
  pixels : List Point
  timestamp : ℚ
  width : ℚ
  height : ℚ
deriving Repr, DecidableEq, Inhabited

/-- Line 474: `if (!gameStartTimeRef.current) gameStartTimeRef.current = timestamp`. -/
def startAdjust (s : GameState) (timestamp : ℚ) : GameState :=
  if s.gameStartTime = 0 then { s with gameStartTime := timestamp } else s

/-- Fold the collision pass back into the session state (the mutations the
`forEach` of lines 258-305 performs on the refs). -/
def tickCollision (s1 : GameState) (t : TickInput) : GameState :=
  { s1 with
    enemies := (resolvePass t.pixels t.timestamp s1.enemies (countersOf s1)).1
    score := (resolvePass t.pixels t.timestamp s1.enemies (countersOf s1)).2.score
    headshots := (resolvePass t.pixels t.timestamp s1.enemies (countersOf s1)).2.headshots
    bodyshots := (resolvePass t.pixels t.timestamp s1.enemies (countersOf s1)).2.bodyshots
    enemiesDestroyed :=
      (resolvePass t.pixels t.timestamp s1.enemies (countersOf s1)).2.enemiesDestroyed }

/-- One `gameLoop` tick, lines 473-513 (the branch where canvas and video are
ready): record the start time, run `updateGameState`, then — regardless of
the returned flag — run the collision pass (line 504 is not gated on line
501's result); the flag only decides whether the next frame is scheduled
(lines 509-512). -/
def gameLoopTick (s : GameState) (t : TickInput) : GameState × Bool :=
  (tickCollision
     (updateGameState (startAdjust s t.timestamp) t.spawn t.timestamp t.width t.height).1 t,
   (updateGameState (startAdjust s t.timestamp) t.spawn t.timestamp t.width t.height).2)

/-- The `requestAnimationFrame` loop: run ticks while the flag stays `true`;
a `false` flag stops the loop (line 509 skips the rescheduling at line 512).
Returns the last state together with `false` when the game ended inside the
supplied ticks. -/
def runLoop (s : GameState) : List TickInput → GameState × Bool
  | [] => (s, true)
  | t :: ts =>
    let r := gameLoopTick s t
    if r.2 then runLoop r.1 ts else (r.1, false)

/-- Apply every tick unconditionally (used to name intermediate states). -/
def runAll (s : GameState) : List TickInput → GameState
  | [] => s
  | t :: ts => runAll (gameLoopTick s t).1 ts

/-- The states a session can be in at tick boundaries: the initial state and
anything one further tick produces. -/
inductive Reachable : GameState → Prop
  | init : Reachable initState
  | step (s : GameState) (t : TickInput) : Reachable s → Reachable (gameLoopTick s t).1

/-! ## Concrete fixtures used by witnesses and counterexamples -/

/-- A target exactly as in spec §8's end-to-end scenario: 100×160 at (0,0),
full hp, never hit. -/
def eDemo : Enemy :=
  { id := "demo", x := 0, y := 0, width := 100, height := 160, hp := 3, maxHp := 3,
    spawnTime := 0, lastHitTime := 0, isHit := false, credited := 0 }

def cZero : HitCounters := { score := 0, headshots := 0, bodyshots := 0, enemiesDestroyed := 0 }

/-- 26 active cells in `eDemo`'s body zone (mean y = 50 ≥ 40). -/
def bodyPixels : List Point := List.replicate 26 ⟨10, 50⟩

/-- 26 active cells in `eDemo`'s head zone (mean y = 10 < 40). -/
def headPixels : List Point := List.replicate 26 ⟨10, 10⟩

/-- 26 active cells whose mean y is exactly the head threshold 40. -/
def edgePixels : List Point := List.replicate 26 ⟨10, 40⟩

/-- First tick: spawns a 100×160 target at (0,0) (draws ½, 0, 0). -/
def tickA : TickInput :=
  { spawn := ⟨"alpha", 1/2, 0, 0⟩, pixels := [], timestamp := 1600, width := 640, height := 480 }

/-- Second tick, 400ms later: no spawn (cadence), one bodyshot on the target. -/
def tickB : TickInput :=
  { spawn := ⟨"beta", 1/2, 0, 0⟩, pixels := bodyPixels, timestamp := 2000,
    width := 640, height := 480 }

/-- A reachable state holding one target on hp 2 with score 1 / bodyshots 1. -/
def sAB : GameState := runAll initState [tickA, tickB]

/-- Second tick for the duplicate-id scenario: same id string drawn again. -/
def tickDup1 : TickInput :=
  { spawn := ⟨"dup", 1/2, 0, 0⟩, pixels := [], timestamp := 1600, width := 640, height := 480 }

def tickDup2 : TickInput :=
  { spawn := ⟨"dup", 1/2, 0, 0⟩, pixels := [], timestamp := 3200, width := 640, height := 480 }

/-- Two live targets carrying the same identity. -/
def sDup : GameState := runAll initState [tickDup1, tickDup2]

/-- Late-session tick: spawns a fresh target at t = 60500 (remaining 1.1s). -/
def tickLate : TickInput :=
  { spawn := ⟨"late", 1/2, 0, 0⟩, pixels := [], timestamp := 60500, width := 640, height := 480 }

/-- State just before the session's final tick: one live target, score 0. -/
def sPre : GameState := runAll initState [tickA, tickLate]

/-- The final tick, at which remaining hits exactly 0, with qualifying motion
inside the live target. -/
def tickF : TickInput :=
  { spawn := ⟨"final", 1/2, 0, 0⟩, pixels := bodyPixels, timestamp := 61600,
    width := 640, height := 480 }

/-! ## C2 — spawn containment -/

set_option maxRecDepth 100000 in
unseal Rat.add Rat.mul Rat.sub Rat.inv Rat.ofScientific in
/-- C2: the claim that every spawned target lies fully inside the supplied
bounds is wrong on the code.  The spawn draws `y` uniformly in
`[0, height - size)` using the pre-stretch `size`, but the target's height is
`size * 1.6`, so its bottom edge can stick out below the bounds.  Concrete
failing input: bounds 640×480, size draw ½ (size 100, in [80,120)), y draw
9/10: the target sits at y = 342 with height 160, and 342 + 160 = 502 > 480.
The horizontal containment and the sizing clauses do hold; only the bottom
containment `y + height ≤ bounds.height` fails. -/
theorem C2_spawn_bottom_overflow :
    ((0:ℚ) ≤ 1/2 ∧ (1/2:ℚ) < 1) ∧ ((0:ℚ) ≤ 9/10 ∧ (9/10:ℚ) < 1) ∧
    (spawnEnemy ⟨"a", 1/2, 0, 9/10⟩ 0 640 480).width = 100 ∧
    (spawnEnemy ⟨"a", 1/2, 0, 9/10⟩ 0 640 480).height = 160 ∧
    (spawnEnemy ⟨"a", 1/2, 0, 9/10⟩ 0 640 480).y = 342 ∧
    480 <
      (spawnEnemy ⟨"a", 1/2, 0, 9/10⟩ 0 640 480).y +
        (spawnEnemy ⟨"a", 1/2, 0, 9/10⟩ 0 640 480).height := by
  decide

/-! ## C8 — duplicate active cells are counted with multiplicity -/

set_option maxRecDepth 100000 in
unseal Rat.add Rat.mul Rat.sub Rat.inv Rat.ofScientific in
/-- C8 counterexample: the claim says feeding the coordinate (10,10) thirty
times to a collision pass against the 100×160 target at (0,0) registers no
hit and leaves hp at 3.  The code counts active-cell list entries with
multiplicity, so the in-box count is 30 > 25: a hit registers, and since the
centroid y = 10 is below the head threshold 40 it is a headshot that zeroes
hp. -/
theorem C8_counterexample :
    hitsInRect eDemo (List.replicate 30 ⟨10, 10⟩) = 30 ∧
    (resolveEnemy (List.replicate 30 ⟨10, 10⟩) 1000 eDemo cZero).1.hp = 0 ∧
    (resolveEnemy (List.replicate 30 ⟨10, 10⟩) 1000 eDemo cZero).2.headshots = 1 := by
  decide

set_option maxRecDepth 100000 in
unseal Rat.add Rat.mul Rat.sub Rat.inv Rat.ofScientific in
/-- C8 amended: the resolver counts list entries, not distinct cells.  With
the coordinate (10,10) repeated only 25 times the strict threshold
`count > 25` is not met, no hit registers and hp stays 3 (counters
untouched); with 30 repetitions the count 30 exceeds 25 and a headshot
registers, setting hp to 0. -/
theorem C8_amended_multiplicity :
    (resolveEnemy (List.replicate 25 ⟨10, 10⟩) 1000 eDemo cZero).1.hp = 3 ∧
    (resolveEnemy (List.replicate 25 ⟨10, 10⟩) 1000 eDemo cZero).2 = cZero ∧
    (resolveEnemy (List.replicate 30 ⟨10, 10⟩) 1000 eDemo cZero).1.hp = 0 := by
  decide

/-! ## Shared invariant machinery

The state invariant maintained at tick boundaries: every live target's hp is
within `[0, maxHp]` with `maxHp = 3`, its ghost destroyed-credit is 1 exactly
when its hp has hit 0, and the score decomposes as 3·headshots + bodyshots. -/

def EnemyInv (e : Enemy) : Prop :=
  0 ≤ e.hp ∧ e.hp ≤ e.maxHp ∧ e.maxHp = 3 ∧ e.credited = if e.hp ≤ 0 then 1 else 0

def StateInv (s : GameState) : Prop :=
  (∀ e ∈ s.enemies, EnemyInv e) ∧ s.score = 3 * (s.headshots : ℤ) + (s.bodyshots : ℤ)

lemma enemyInv_spawn (si : SpawnInput) (timestamp width height : ℚ) :
    EnemyInv (spawnEnemy si timestamp width height) := by
  refine ⟨by norm_num [spawnEnemy], by norm_num [spawnEnemy], rfl, by norm_num [spawnEnemy]⟩

@[simp] lemma clearHitFlag_hp (timestamp : ℚ) (e : Enemy) :
    (clearHitFlag timestamp e).hp = e.hp := by
  unfold clearHitFlag; split <;> rfl

@[simp] lemma clearHitFlag_maxHp (timestamp : ℚ) (e : Enemy) :
    (clearHitFlag timestamp e).maxHp = e.maxHp := by
  unfold clearHitFlag; split <;> rfl

@[simp] lemma clearHitFlag_credited (timestamp : ℚ) (e : Enemy) :
    (clearHitFlag timestamp e).credited = e.credited := by
  unfold clearHitFlag; split <;> rfl

@[simp] lemma clearHitFlag_id (timestamp : ℚ) (e : Enemy) :
    (clearHitFlag timestamp e).id = e.id := by
  unfold clearHitFlag; split <;> rfl

lemma enemyInv_clearHitFlag (timestamp : ℚ) {e : Enemy} (h : EnemyInv e) :
    EnemyInv (clearHitFlag timestamp e) := by
  simpa [EnemyInv] using h

/-- Membership in the sweep output: the survivor came from the input (modulo
the flash-flag clear) and its hp is at least 1. -/
lemma sweep_mem (timestamp : ℚ) {es : List Enemy} {e : Enemy}
    (h : e ∈ sweepEnemies timestamp es) :
    (∃ e0 ∈ es, e = clearHitFlag timestamp e0) ∧ 1 ≤ e.hp := by
  unfold sweepEnemies at h
  have h1 := List.mem_filter.mp h
  obtain ⟨e0, he0, rfl⟩ := List.mem_map.mp h1.1
  have hk := h1.2
  unfold keepEnemy at hk
  simp only [Bool.and_eq_true, Bool.not_eq_true', decide_eq_false_iff_not] at hk
  exact ⟨⟨e0, he0, rfl⟩, by omega⟩

/-- One resolver visit preserves the per-enemy invariant (given the sweep has
just guaranteed hp ≥ 1) and the score decomposition of the counters. -/
lemma resolveEnemy_inv (ps : List Point) (t : ℚ) {e : Enemy} {c : HitCounters}
    (he : EnemyInv e) (hhp : 1 ≤ e.hp)
    (hc : c.score = 3 * (c.headshots : ℤ) + (c.bodyshots : ℤ)) :
    EnemyInv (resolveEnemy ps t e c).1 ∧
    (resolveEnemy ps t e c).2.score =
      3 * ((resolveEnemy ps t e c).2.headshots : ℤ) +
        ((resolveEnemy ps t e c).2.bodyshots : ℤ) := by
  obtain ⟨h0, hle, hmax, hcred⟩ := he
  have hnot : ¬ e.hp ≤ 0 := by omega
  have hcred0 : e.credited = 0 := by rw [hcred, if_neg hnot]
  unfold resolveEnemy
  split
  · exact ⟨⟨h0, hle, hmax, hcred⟩, hc⟩
  split
  · split
    · -- headshot branch
      refine ⟨⟨le_refl 0, by show (0:ℤ) ≤ e.maxHp; omega, hmax, by simp [hcred0]⟩, ?_⟩
      simp only [hc]
      push_cast
      ring
    · -- bodyshot branch
      constructor
      · refine ⟨by show (0:ℤ) ≤ e.hp - 1; omega, by show e.hp - 1 ≤ e.maxHp; omega, hmax, ?_⟩
        simp [hcred0]
      · simp only [hc]
        push_cast
        ring
  · exact ⟨⟨h0, hle, hmax, hcred⟩, hc⟩

lemma resolvePass_inv (ps : List Point) (t : ℚ) :
    ∀ (es : List Enemy) (c : HitCounters),
      (∀ e ∈ es, EnemyInv e ∧ 1 ≤ e.hp) →
      c.score = 3 * (c.headshots : ℤ) + (c.bodyshots : ℤ) →
      (∀ e ∈ (resolvePass ps t es c).1, EnemyInv e) ∧
      (resolvePass ps t es c).2.score =
        3 * ((resolvePass ps t es c).2.headshots : ℤ) +
          ((resolvePass ps t es c).2.bodyshots : ℤ)
  | [], c, _, hc => by
    simpa [resolvePass] using hc
  | e :: es, c, hes, hc => by
    have h1 := resolveEnemy_inv ps t
      (hes e (List.mem_cons_self e es)).1 (hes e (List.mem_cons_self e es)).2 hc
    have h2 := resolvePass_inv ps t es (resolveEnemy ps t e c).2
      (fun x hx => hes x (List.mem_cons_of_mem e hx)) h1.2
    simp only [resolvePass]
    refine ⟨?_, h2.2⟩
    intro x hx
    rcases List.mem_cons.mp hx with hx | hx
    · exact hx ▸ h1.1
    · exact h2.1 x hx

lemma stateInv_spawnStep {s : GameState} (h : StateInv s) (si : SpawnInput)
    (timestamp width height : ℚ) :
    (∀ e ∈ (spawnStep s si timestamp width height).enemies, EnemyInv e) ∧
    (spawnStep s si timestamp width height).score = s.score ∧
    (spawnStep s si timestamp width height).headshots = s.headshots ∧
    (spawnStep s si timestamp width height).bodyshots = s.bodyshots ∧
    (spawnStep s si timestamp width height).gameStartTime = s.gameStartTime := by
  unfold spawnStep
  split
  · refine ⟨?_, rfl, rfl, rfl, rfl⟩
    intro e he
    rcases List.mem_append.mp he with he | he
    · exact h.1 e he
    · rcases List.mem_singleton.mp he with rfl
      exact enemyInv_spawn si timestamp width height
  · exact ⟨h.1, rfl, rfl, rfl, rfl⟩

/-- After the spawn-and-sweep phase every survivor satisfies the invariant
with hp ≥ 1, and the hit counters are untouched. -/
lemma sweptState_inv {s : GameState} (h : StateInv s) (si : SpawnInput)
    (timestamp width height : ℚ) :
    (∀ e ∈ (sweptState s si timestamp width height).enemies, EnemyInv e ∧ 1 ≤ e.hp) ∧
    (sweptState s si timestamp width height).score = s.score ∧
    (sweptState s si timestamp width height).headshots = s.headshots ∧
    (sweptState s si timestamp width height).bodyshots = s.bodyshots := by
  have hs := stateInv_spawnStep h si timestamp width height
  refine ⟨?_, hs.2.1, hs.2.2.1, hs.2.2.2.1⟩
  intro e he
  have hm := sweep_mem timestamp he
  obtain ⟨⟨e0, he0, rfl⟩, hhp⟩ := hm
  exact ⟨enemyInv_clearHitFlag timestamp (hs.1 e0 he0), hhp⟩

lemma stateInv_gameLoopTick {s : GameState} (h : StateInv s) (t : TickInput) :
    StateInv (gameLoopTick s t).1 := by
  have h0 : StateInv (startAdjust s t.timestamp) := by
    unfold startAdjust
    split
    · exact ⟨h.1, h.2⟩
    · exact h
  have h1 := sweptState_inv h0 t.spawn t.timestamp t.width t.height
  have hcrel : (countersOf
        (sweptState (startAdjust s t.timestamp) t.spawn t.timestamp t.width t.height)).score
      = 3 * ((countersOf (sweptState (startAdjust s t.timestamp) t.spawn t.timestamp t.width
            t.height)).headshots : ℤ)
        + ((countersOf (sweptState (startAdjust s t.timestamp) t.spawn t.timestamp t.width
            t.height)).bodyshots : ℤ) := by
    show (sweptState (startAdjust s t.timestamp) t.spawn t.timestamp t.width t.height).score
      = 3 * ((sweptState (startAdjust s t.timestamp) t.spawn t.timestamp t.width
            t.height).headshots : ℤ)
        + ((sweptState (startAdjust s t.timestamp) t.spawn t.timestamp t.width
            t.height).bodyshots : ℤ)
    rw [h1.2.1, h1.2.2.1, h1.2.2.2, h0.2]
  have h2 := resolvePass_inv t.pixels t.timestamp
    (sweptState (startAdjust s t.timestamp) t.spawn t.timestamp t.width t.height).enemies
    (countersOf (sweptState (startAdjust s t.timestamp) t.spawn t.timestamp t.width t.height))
    h1.1 hcrel
  exact ⟨h2.1, h2.2⟩

/-- Every reachable tick-boundary state satisfies the invariant. -/
lemma reach_inv {s : GameState} (h : Reachable s) : StateInv s := by
  induction h with
  | init => exact ⟨by simp [initState], by simp [initState]⟩
  | step s t hs ih => exact stateInv_gameLoopTick ih t

lemma reachable_sAB : Reachable sAB :=
  Reachable.step _ tickB (Reachable.step _ tickA Reachable.init)

/-! ## Identity tracking

The collision pass and the sweep never change a target's id, so the ids
alive after a tick form a sublist of the previous ids extended by the tick's
freshly drawn id. -/

lemma resolveEnemy_id (ps : List Point) (t : ℚ) (e : Enemy) (c : HitCounters) :
    (resolveEnemy ps t e c).1.id = e.id := by
  unfold resolveEnemy
  split
  · rfl
  split
  · split <;> rfl
  · rfl

lemma resolvePass_ids (ps : List Point) (t : ℚ) :
    ∀ (es : List Enemy) (c : HitCounters),
      ((resolvePass ps t es c).1).map Enemy.id = es.map Enemy.id
  | [], c => by simp [resolvePass]
  | e :: es, c => by
    simp [resolvePass, resolveEnemy_id, resolvePass_ids ps t es]

lemma sweep_ids_sublist (timestamp : ℚ) (es : List Enemy) :
    ((sweepEnemies timestamp es).map Enemy.id).Sublist (es.map Enemy.id) := by
  unfold sweepEnemies
  have h1 : ((es.map (clearHitFlag timestamp)).filter (keepEnemy timestamp)).Sublist
      (es.map (clearHitFlag timestamp)) := List.filter_sublist _
  have h2 := h1.map Enemy.id
  rw [List.map_map] at h2
  have h3 : (Enemy.id ∘ clearHitFlag timestamp) = Enemy.id := by
    funext x
    exact clearHitFlag_id timestamp x
  rwa [h3] at h2

@[simp] lemma spawnEnemy_id (si : SpawnInput) (timestamp width height : ℚ) :
    (spawnEnemy si timestamp width height).id = si.id := rfl

@[simp] lemma startAdjust_enemies (s : GameState) (timestamp : ℚ) :
    (startAdjust s timestamp).enemies = s.enemies := by
  unfold startAdjust
  split <;> rfl

lemma spawnStep_ids_sublist (s : GameState) (si : SpawnInput) (timestamp width height : ℚ) :
    ((spawnStep s si timestamp width height).enemies.map Enemy.id).Sublist
      (s.enemies.map Enemy.id ++ [si.id]) := by
  unfold spawnStep
  split
  · simp
  · exact List.sublist_append_left _ _

lemma tick_ids_sublist (s : GameState) (t : TickInput) :
    (((gameLoopTick s t).1.enemies).map Enemy.id).Sublist
      (s.enemies.map Enemy.id ++ [t.spawn.id]) := by
  have h1 : ((gameLoopTick s t).1.enemies).map Enemy.id
      = ((sweptState (startAdjust s t.timestamp) t.spawn t.timestamp t.width
            t.height).enemies).map Enemy.id :=
    resolvePass_ids t.pixels t.timestamp _ _
  rw [h1]
  have h2 := sweep_ids_sublist t.timestamp
    (spawnStep (startAdjust s t.timestamp) t.spawn t.timestamp t.width t.height).enemies
  have h3 := spawnStep_ids_sublist (startAdjust s t.timestamp) t.spawn t.timestamp t.width t.height
  rw [startAdjust_enemies] at h3
  exact h2.trans h3

/-- If the live ids are pairwise distinct and disjoint from all upcoming
drawn ids, and the upcoming draws are pairwise distinct, then the live ids
stay pairwise distinct along the whole run. -/
lemma runAll_ids :
    ∀ (ticks : List TickInput) (s : GameState),
      (s.enemies.map Enemy.id).Pairwise (· ≠ ·) →
      (∀ a ∈ s.enemies.map Enemy.id, ∀ tk ∈ ticks, a ≠ tk.spawn.id) →
      ((ticks.map fun tk => tk.spawn.id).Pairwise (· ≠ ·)) →
      (((runAll s ticks).enemies.map Enemy.id).Pairwise (· ≠ ·))
  | [], s, hpw, _, _ => hpw
  | t :: ts, s, hpw, hdisj, hids => by
    rw [runAll]
    have hsub := tick_ids_sublist s t
    have happ : (s.enemies.map Enemy.id ++ [t.spawn.id]).Pairwise (· ≠ ·) := by
      refine List.pairwise_append.mpr ⟨hpw, List.pairwise_singleton _ _, ?_⟩
      intro a ha b hb
      rw [List.mem_singleton.mp hb]
      exact hdisj a ha t (List.mem_cons_self t ts)
    have hpw2 := happ.sublist hsub
    rw [List.map_cons] at hids
    have hmap := List.pairwise_cons.mp hids
    refine runAll_ids ts _ hpw2 ?_ hmap.2
    intro a ha tk htk
    rcases List.mem_append.mp (hsub.subset ha) with h | h
    · exact hdisj a h tk (List.mem_cons_of_mem t htk)
    · rw [List.mem_singleton.mp h]
      exact hmap.1 tk.spawn.id (List.mem_map_of_mem (fun x => x.spawn.id) htk)

/-! ## Cooldown machinery -/

/-- `true` iff the resolver visit at `t` registers a hit on `e`: the cooldown
guard (line 260) passes and the in-box count beats the threshold (line 274). -/
def registersHit (ps : List Point) (t : ℚ) (e : Enemy) : Bool :=
  !decide (t - e.lastHitTime < HIT_COOLDOWN_MS) &&
  decide (HIT_PIXEL_COUNT_THRESHOLD < hitsInRect e ps)

/-- Thread one target through a sequence of collision passes (each pass an
active-cell list with its timestamp), collecting the timestamps of the hits
registered on it.  The counters do not influence the target's evolution. -/
def runPasses (e : Enemy) : List (List Point × ℚ) → List ℚ
  | [] => []
  | p :: rest =>
    if registersHit p.1 p.2 e then
      p.2 :: runPasses (resolveEnemy p.1 p.2 e cZero).1 rest
    else
      runPasses (resolveEnemy p.1 p.2 e cZero).1 rest

lemma registersHit_true {ps : List Point} {t : ℚ} {e : Enemy}
    (h : registersHit ps t e = true) :
    ¬ (t - e.lastHitTime < HIT_COOLDOWN_MS) ∧
    HIT_PIXEL_COUNT_THRESHOLD < hitsInRect e ps := by
  unfold registersHit at h
  simpa using h

lemma resolveEnemy_hit_lastHitTime {ps : List Point} {t : ℚ} {e : Enemy} {c : HitCounters}
    (h : registersHit ps t e = true) :
    (resolveEnemy ps t e c).1.lastHitTime = t := by
  obtain ⟨h1, h2⟩ := registersHit_true h
  unfold resolveEnemy
  rw [if_neg h1, if_pos h2]
  split <;> rfl

lemma resolveEnemy_not_hit {ps : List Point} {t : ℚ} {e : Enemy} {c : HitCounters}
    (h : registersHit ps t e = false) :
    (resolveEnemy ps t e c).1 = e := by
  unfold registersHit at h
  rcases Bool.and_eq_false_iff.mp h with h1 | h1
  · have hc : t - e.lastHitTime < HIT_COOLDOWN_MS := by simpa using h1
    unfold resolveEnemy
    rw [if_pos hc]
  · have hc : ¬ HIT_PIXEL_COUNT_THRESHOLD < hitsInRect e ps := by simpa using h1
    unfold resolveEnemy
    split
    · rfl
    · simp [if_neg hc]

/-- Every hit collected after the target's current state is at least one
cooldown later than its recorded last hit. -/
lemma runPasses_lb (passes : List (List Point × ℚ)) :
    ∀ e, ∀ x ∈ runPasses e passes, e.lastHitTime + HIT_COOLDOWN_MS ≤ x := by
  induction passes with
  | nil =>
    intro e x hx
    simp [runPasses] at hx
  | cons p rest ih =>
    intro e x hx
    by_cases hreg : registersHit p.1 p.2 e
    · rw [runPasses, if_pos hreg] at hx
      have hcool : e.lastHitTime + HIT_COOLDOWN_MS ≤ p.2 := by
        have h1 := (registersHit_true hreg).1
        linarith [not_lt.mp h1]
      rcases List.mem_cons.mp hx with rfl | hx
      · exact hcool
      · have hlast := resolveEnemy_hit_lastHitTime (c := cZero) hreg
        have hlb := ih _ x hx
        rw [hlast] at hlb
        have hpos : (0:ℚ) ≤ HIT_COOLDOWN_MS := by norm_num [HIT_COOLDOWN_MS]
        linarith
    · rw [runPasses, if_neg hreg] at hx
      rw [resolveEnemy_not_hit (c := cZero) (Bool.not_eq_true _ ▸ eq_false_of_ne_true hreg)] at hx
      exact ih e x hx

lemma runPasses_pairwise (passes : List (List Point × ℚ)) :
    ∀ e, (runPasses e passes).Pairwise (fun t1 t2 => HIT_COOLDOWN_MS ≤ t2 - t1) := by
  induction passes with
  | nil => intro e; simp [runPasses]
  | cons p rest ih =>
    intro e
    by_cases hreg : registersHit p.1 p.2 e
    · rw [runPasses, if_pos hreg]
      refine List.pairwise_cons.mpr ⟨?_, ih _⟩
      intro x hx
      have hlb := runPasses_lb rest _ x hx
      rw [resolveEnemy_hit_lastHitTime (c := cZero) hreg] at hlb
      linarith
    · rw [runPasses, if_neg hreg]
      rw [resolveEnemy_not_hit (c := cZero) (Bool.not_eq_true _ ▸ eq_false_of_ne_true hreg)]
      exact ih e

/-- Three passes with sustained qualifying motion: hits land at 1000 and
1500; the pass at 1200 is inside the cooldown window and registers nothing. -/
def passesDemo : List (List Point × ℚ) :=
  [(headPixels, 1000), (headPixels, 1200), (headPixels, 1500)]

/-! ## Loop-stop lemmas -/

@[simp] lemma spawnStep_gameStartTime (s : GameState) (si : SpawnInput)
    (timestamp width height : ℚ) :
    (spawnStep s si timestamp width height).gameStartTime = s.gameStartTime := by
  unfold spawnStep
  split <;> rfl

@[simp] lemma sweptState_gameStartTime (s : GameState) (si : SpawnInput)
    (timestamp width height : ℚ) :
    (sweptState s si timestamp width height).gameStartTime = s.gameStartTime :=
  spawnStep_gameStartTime s si timestamp width height

/-- The continue flag a tick returns is exactly the check that the session
clock has time remaining at that tick's timestamp. -/
lemma gameLoopTick_flag (s : GameState) (t : TickInput) :
    (gameLoopTick s t).2
      = !decide (remainingAt (startAdjust s t.timestamp).gameStartTime t.timestamp ≤ 0) := by
  have h : (gameLoopTick s t).2
      = !decide (remainingAt
          (sweptState (startAdjust s t.timestamp) t.spawn t.timestamp t.width
            t.height).gameStartTime t.timestamp ≤ 0) := rfl
  rw [h, sweptState_gameStartTime]

/-! ## C1 — termination and the final tick's collision pass -/

set_option maxRecDepth 100000 in
unseal Rat.add Rat.mul Rat.sub Rat.inv Rat.ofScientific in
/-- C1 counterexample: the claim says no collision pass is performed on the
tick at which remaining reaches 0.  In the code `detectMotionAndCollisions`
(line 504) runs before the `if (!isRunning) return` check (line 509), so the
game-over tick still resolves collisions.  Concretely: at `sPre` (a state
with one live target and score 0, 60 seconds into the session) the tick at
t = 61600 has remaining exactly 0 and returns the stop flag, yet its
collision pass lands a bodyshot, raising the score to 1. -/
theorem C1_counterexample :
    remainingAt sPre.gameStartTime tickF.timestamp = 0 ∧
    (gameLoopTick sPre tickF).2 = false ∧
    sPre.score = 0 ∧
    (gameLoopTick sPre tickF).1.score = 1 ∧
    (gameLoopTick sPre tickF).1.bodyshots = 1 := by
  decide

/-- C1 amended: when a tick starts with no remaining time, the tick returns
the stop flag (the path on which `onGameOver` fires), the loop executes no
further tick after it — so no collision pass runs after that tick — but the
collision pass does still run on that final tick itself: the state the loop
stops in is the swept state with the collision pass applied. -/
theorem C1_final_tick_still_resolves (s : GameState) (t : TickInput) (ts : List TickInput)
    (h0 : remainingAt (startAdjust s t.timestamp).gameStartTime t.timestamp ≤ 0) :
    (gameLoopTick s t).2 = false ∧
    runLoop s (t :: ts) = ((gameLoopTick s t).1, false) ∧
    (gameLoopTick s t).1.enemies =
      (resolvePass t.pixels t.timestamp
        (updateGameState (startAdjust s t.timestamp) t.spawn t.timestamp t.width t.height).1.enemies
        (countersOf
          (updateGameState (startAdjust s t.timestamp) t.spawn t.timestamp t.width
            t.height).1)).1 := by
  have hflag : (gameLoopTick s t).2 = false := by
    rw [gameLoopTick_flag, decide_eq_true h0]
    rfl
  refine ⟨hflag, ?_, rfl⟩
  simp only [runLoop, hflag]
  simp

set_option maxRecDepth 100000 in
unseal Rat.add Rat.mul Rat.sub Rat.inv Rat.ofScientific in
/-- Witness for C1: the amended statement evaluated on the concrete
end-of-session scenario. -/
theorem C1_witness :
    (gameLoopTick sPre tickF).2 = false ∧
    runLoop sPre [tickF] = ((gameLoopTick sPre tickF).1, false) := by
  have h := C1_final_tick_still_resolves sPre tickF [] (by decide)
  exact ⟨h.1, h.2.1⟩

/-! ## C3 — identity uniqueness -/

set_option maxRecDepth 100000 in
unseal Rat.add Rat.mul Rat.sub Rat.inv Rat.ofScientific in
/-- C3 counterexample: identities come from fresh `Math.random()` draws
(line 102) with no collision protection, so a random stream that repeats a
value makes two spawns produce the same id.  Two ticks whose spawn draws
yield the same id string leave the directory holding two simultaneously live
targets with identical ids. -/
theorem C3_counterexample :
    sDup.enemies.map Enemy.id = ["dup", "dup"] ∧
    ¬ (sDup.enemies.map Enemy.id).Nodup := by
  refine ⟨by decide, by decide⟩

/-- C3 amended: distinctness of identities holds exactly when the id
generator never repeats: if the ids drawn by the ticks of a session are
pairwise distinct, then at every point of the run the live target set holds
pairwise-distinct ids. -/
theorem C3_unique_ids_of_distinct_draws (ticks : List TickInput)
    (hids : ((ticks.map fun tk => tk.spawn.id).Pairwise (· ≠ ·))) :
    (runAll initState ticks).enemies.Pairwise (fun a b => a.id ≠ b.id) := by
  have h := runAll_ids ticks initState (by simp [initState]) (by simp [initState]) hids
  exact (List.pairwise_map).mp h

set_option maxRecDepth 100000 in
unseal Rat.add Rat.mul Rat.sub Rat.inv Rat.ofScientific in
/-- Witness for C3: a run with distinct draws keeps the live ids distinct. -/
theorem C3_witness :
    List.Pairwise Ne (sAB.enemies.map Enemy.id) ∧ sAB.enemies.map Enemy.id = ["alpha"] := by
  have h := C3_unique_ids_of_distinct_draws [tickA, tickB] (by decide)
  exact ⟨List.pairwise_map.mpr h, by decide⟩

/-! ## C4 — hp bounds -/

/-- C4: in every reachable session state every live target satisfies
`0 ≤ hp ≤ maxHp`, and after the directory sweep of any further
`updateGameState` call every surviving target has hp ≥ 1 — so a target whose
hp reached 0 is removed by the next sweep and no later collision pass (which
always runs after a sweep) ever sees it, hence hp is never pushed below 0. -/
theorem C4_hp_bounds (s : GameState) (hs : Reachable s) :
    (∀ e ∈ s.enemies, 0 ≤ e.hp ∧ e.hp ≤ e.maxHp) ∧
    (∀ (si : SpawnInput) (timestamp width height : ℚ),
      ∀ e ∈ (updateGameState s si timestamp width height).1.enemies, 1 ≤ e.hp) := by
  have h := reach_inv hs
  constructor
  · intro e he
    exact ⟨(h.1 e he).1, (h.1 e he).2.1⟩
  · intro si timestamp width height e he
    exact ((sweptState_inv h si timestamp width height).1 e he).2

set_option maxRecDepth 100000 in
unseal Rat.add Rat.mul Rat.sub Rat.inv Rat.ofScientific in
/-- Witness for C4 at the concrete reachable state `sAB` (one target on hp 2
after a bodyshot). -/
theorem C4_witness :
    (0 ≤ sAB.enemies.headI.hp ∧ sAB.enemies.headI.hp ≤ sAB.enemies.headI.maxHp) ∧
    1 ≤ ((updateGameState sAB ⟨"w", 1/2, 0, 0⟩ 3000 640 480).1.enemies.headI).hp := by
  have h := C4_hp_bounds sAB reachable_sAB
  exact ⟨h.1 _ (by decide), h.2 ⟨"w", 1/2, 0, 0⟩ 3000 640 480 _ (by decide)⟩

/-! ## C5 — hit cooldown -/

/-- C5: threading a target through any sequence of collision passes with
strictly increasing timestamps, any two hits registered on it are at least
`HIT_COOLDOWN_MS` (400ms) apart — the guard skips the target while
`timestamp - lastHitTime < 400` and every hit stamps `lastHitTime`, so even
sustained qualifying motion cannot land two hits inside the window.  (The
pairwise gap on the collected hit list holds for the list order, which under
the monotone-timestamp hypothesis is the time order of the claim.) -/
theorem C5_hit_cooldown (e : Enemy) (passes : List (List Point × ℚ))
    (hmono : List.Chain' (· < ·) (passes.map Prod.snd)) :
    (runPasses e passes).Pairwise (fun t1 t2 => HIT_COOLDOWN_MS ≤ t2 - t1) :=
  runPasses_pairwise passes e

set_option maxRecDepth 100000 in
unseal Rat.add Rat.mul Rat.sub Rat.inv Rat.ofScientific in
/-- Witness for C5: under sustained motion at t = 1000, 1200, 1500 the hits
land at 1000 and 1500 only, 500ms ≥ 400ms apart. -/
theorem C5_witness :
    runPasses eDemo passesDemo = [1000, 1500] ∧ HIT_COOLDOWN_MS ≤ (1500:ℚ) - 1000 := by
  have hmono : List.Chain' (· < ·) (passesDemo.map Prod.snd) := by
    norm_num [passesDemo, List.chain'_cons, List.chain'_singleton]
  have h := C5_hit_cooldown eDemo passesDemo hmono
  have he : runPasses eDemo passesDemo = [1000, 1500] := by decide
  rw [he] at h
  exact ⟨he, (List.pairwise_cons.mp h).1 1500 (List.mem_singleton.mpr rfl)⟩

/-! ## C6 — boundary centroid is a bodyshot -/

/-- C6: a confirmed hit whose in-box mean y equals exactly
`ty + height * 0.25` is classified as a bodyshot: the headshot test at line
279 is a strict `<`, so the boundary falls to the body branch (hp drops by
1, bodyshot counter and score + 1, headshot counter untouched). -/
theorem C6_boundary_bodyshot (ps : List Point) (t : ℚ) (e : Enemy) (c : HitCounters)
    (hcool : ¬ (t - e.lastHitTime < HIT_COOLDOWN_MS))
    (hcount : HIT_PIXEL_COUNT_THRESHOLD < hitsInRect e ps)
    (hmid : hitYSum e ps / (hitsInRect e ps : ℚ) = e.y + e.height * 0.25) :
    (resolveEnemy ps t e c).1.hp = e.hp - 1 ∧
    (resolveEnemy ps t e c).2.bodyshots = c.bodyshots + 1 ∧
    (resolveEnemy ps t e c).2.headshots = c.headshots ∧
    (resolveEnemy ps t e c).2.score = c.score + 1 := by
  have hnot : ¬ (hitYSum e ps / (hitsInRect e ps : ℚ) < e.y + e.height * 0.25) := by
    rw [hmid]
    exact lt_irrefl _
  unfold resolveEnemy
  rw [if_neg hcool, if_pos hcount, if_neg hnot]
  exact ⟨rfl, rfl, rfl, rfl⟩

set_option maxRecDepth 100000 in
unseal Rat.add Rat.mul Rat.sub Rat.inv Rat.ofScientific in
/-- Witness for C6: 26 cells at y = 40 against the 100×160 target at (0,0)
have centroid exactly at the head threshold 40 and land a bodyshot. -/
theorem C6_witness :
    (resolveEnemy edgePixels 1000 eDemo cZero).1.hp = 2 ∧
    (resolveEnemy edgePixels 1000 eDemo cZero).2.bodyshots = 1 ∧
    (resolveEnemy edgePixels 1000 eDemo cZero).2.headshots = 0 ∧
    (resolveEnemy edgePixels 1000 eDemo cZero).2.score = 1 := by
  have h := C6_boundary_bodyshot edgePixels 1000 eDemo cZero (by decide) (by decide) (by decide)
  exact ⟨h.1.trans (by decide), h.2.1.trans (by decide), h.2.2.1.trans (by decide),
    h.2.2.2.trans (by decide)⟩

/-! ## C7 — headshot effects, destroyed bumped once -/

/-- C7: a confirmed headshot on a live target zeroes its hp regardless of its
prior value, adds 3 to the score, bumps the headshot counter, and bumps the
destroyed counter together with the target's ghost destroyed-credit; and in
every reachable state every live target's credit is at most 1 (0 while it is
alive with positive hp).  Since a target with hp 0 is swept out before any
later pass and each pass visits each target once, the destroyed counter is
bumped exactly once for that target over the whole session. -/
theorem C7_headshot_effects_once :
    (∀ (ps : List Point) (t : ℚ) (e : Enemy) (c : HitCounters),
      ¬ (t - e.lastHitTime < HIT_COOLDOWN_MS) →
      HIT_PIXEL_COUNT_THRESHOLD < hitsInRect e ps →
      hitYSum e ps / (hitsInRect e ps : ℚ) < e.y + e.height * 0.25 →
      (resolveEnemy ps t e c).1.hp = 0 ∧
      (resolveEnemy ps t e c).2.score = c.score + 3 ∧
      (resolveEnemy ps t e c).2.headshots = c.headshots + 1 ∧
      (resolveEnemy ps t e c).2.enemiesDestroyed = c.enemiesDestroyed + 1 ∧
      (resolveEnemy ps t e c).1.credited = e.credited + 1) ∧
    (∀ s, Reachable s → ∀ e ∈ s.enemies, e.credited ≤ 1 ∧ (1 ≤ e.hp → e.credited = 0)) := by
  constructor
  · intro ps t e c hcool hcount hhead
    unfold resolveEnemy
    rw [if_neg hcool, if_pos hcount, if_pos hhead]
    exact ⟨rfl, rfl, rfl, rfl, rfl⟩
  · intro s hs e he
    obtain ⟨h0, hle, hmax, hcred⟩ := (reach_inv hs).1 e he
    constructor
    · rw [hcred]
      split <;> omega
    · intro hhp
      rw [hcred, if_neg (by omega : ¬ e.hp ≤ 0)]

set_option maxRecDepth 100000 in
unseal Rat.add Rat.mul Rat.sub Rat.inv Rat.ofScientific in
/-- Witness for C7: a concrete headshot (26 cells at y = 10) on the full-hp
demo target, plus the credit bound at the reachable state `sAB`. -/
theorem C7_witness :
    (resolveEnemy headPixels 1000 eDemo cZero).1.hp = 0 ∧
    (resolveEnemy headPixels 1000 eDemo cZero).2.score = 3 ∧
    (resolveEnemy headPixels 1000 eDemo cZero).2.headshots = 1 ∧
    (resolveEnemy headPixels 1000 eDemo cZero).2.enemiesDestroyed = 1 ∧
    (resolveEnemy headPixels 1000 eDemo cZero).1.credited = 1 ∧
    sAB.enemies.headI.credited ≤ 1 := by
  have h1 := C7_headshot_effects_once.1 headPixels 1000 eDemo cZero (by decide) (by decide)
    (by decide)
  have h2 := C7_headshot_effects_once.2 sAB reachable_sAB sAB.enemies.headI (by decide)
  exact ⟨h1.1, h1.2.1.trans (by decide), h1.2.2.1.trans (by decide),
    h1.2.2.2.1.trans (by decide), h1.2.2.2.2.trans (by decide), h2.1⟩

/-! ## C9 — cursor smoothing never overshoots -/

lemma half_between {a b : ℚ} (h : a ≠ b) :
    min a b < a * smoothFactor + b * (1 - smoothFactor) ∧
    a * smoothFactor + b * (1 - smoothFactor) < max a b := by
  have hsf : smoothFactor = 1/2 := by norm_num [smoothFactor]
  rcases lt_or_gt_of_ne h with h1 | h1
  · rw [min_eq_left h1.le, max_eq_right h1.le, hsf]
    constructor <;> linarith
  · rw [min_eq_right h1.le, max_eq_left h1.le, hsf]
    constructor <;> linarith

/-- C9: with a previous cursor position and a non-empty active-cell list
whose centroid is P, the updated cursor is `prev*0.5 + P*0.5`, and whenever
`prev ≠ P` componentwise this point lies strictly between `prev` and `P` on
each axis: the smoothed cursor converges toward the centroid and never
overshoots it. -/
theorem C9_cursor_between (prev P : Point) (ps : List Point)
    (hne : ps ≠ [])
    (hcx : (ps.map Point.x).sum / (ps.length : ℚ) = P.x)
    (hcy : (ps.map Point.y).sum / (ps.length : ℚ) = P.y)
    (hx : prev.x ≠ P.x) (hy : prev.y ≠ P.y) :
    cursorUpdate (some prev) ps
      = some ⟨prev.x * smoothFactor + P.x * (1 - smoothFactor),
              prev.y * smoothFactor + P.y * (1 - smoothFactor)⟩ ∧
    min prev.x P.x < prev.x * smoothFactor + P.x * (1 - smoothFactor) ∧
    prev.x * smoothFactor + P.x * (1 - smoothFactor) < max prev.x P.x ∧
    min prev.y P.y < prev.y * smoothFactor + P.y * (1 - smoothFactor) ∧
    prev.y * smoothFactor + P.y * (1 - smoothFactor) < max prev.y P.y := by
  have hlen : 0 < ps.length := List.length_pos.mpr hne
  refine ⟨?_, (half_between hx).1, (half_between hx).2, (half_between hy).1,
    (half_between hy).2⟩
  unfold cursorUpdate
  rw [if_pos hlen]
  simp only [hcx, hcy]

set_option maxRecDepth 100000 in
unseal Rat.add Rat.mul Rat.sub Rat.inv Rat.ofScientific in
/-- Witness for C9: cursor at (0,0), centroid (4,8): the update lands at
(2,4), strictly between on both axes. -/
theorem C9_witness :
    cursorUpdate (some ⟨0, 0⟩) [(⟨4, 8⟩ : Point)] = some ⟨2, 4⟩ ∧
    (0:ℚ) < 2 ∧ (2:ℚ) < 4 ∧ (0:ℚ) < 4 ∧ (4:ℚ) < 8 := by
  have h := C9_cursor_between ⟨0, 0⟩ ⟨4, 8⟩ [⟨4, 8⟩] (by decide) (by decide) (by decide)
    (by decide) (by decide)
  refine ⟨h.1.trans (by decide), ?_, ?_, ?_, ?_⟩ <;> decide

/-! ## C10 — score decomposition -/

/-- C10: in every reachable session state the score equals
3·headshots + 1·bodyshots: all three counters start at 0 and are changed
only by hit resolution, which adds 3 with each headshot increment and 1 with
each bodyshot increment. -/
theorem C10_score_decomposition (s : GameState) (hs : Reachable s) :
    s.score = 3 * (s.headshots : ℤ) + (s.bodyshots : ℤ) :=
  (reach_inv hs).2

set_option maxRecDepth 100000 in
unseal Rat.add Rat.mul Rat.sub Rat.inv Rat.ofScientific in
/-- Witness for C10 at the reachable state `sAB` (score 1 = 3·0 + 1). -/
theorem C10_witness :
    sAB.score = 3 * (sAB.headshots : ℤ) + (sAB.bodyshots : ℤ) ∧ sAB.score = 1 :=
  ⟨C10_score_decomposition sAB reachable_sAB, by decide⟩

end FPS
